import Mathlib

/-!
Shallow embedding of the bluez-rs management protocol engine
(src/mgmt/client.rs and src/mgmt/interface/response.rs).

Byte buffers are `List Nat` (one entry per byte).  The `bytes` crate's
`Buf` operations (`get_u8`, `get_u16_le`, `get_u32_le`, `advance`,
`split_to`) panic when the buffer holds fewer bytes than requested; we
model a panic as a distinguished outcome rather than as an error value,
since a Rust panic aborts rather than returning `Err`.
-/

/-- A byte buffer: a list of byte values. -/
abbrev Bytes := List Nat

/-- `Buf::get_u8`: read one byte; the `bytes` crate panics when the buffer
is empty, modelled as `none`. -/
def get_u8 : Bytes → Option (Nat × Bytes)
  | b0 :: rest => some (b0, rest)
  | _ => Option.none

/-- `Buf::get_u16_le`: read a 2-byte little-endian integer; panics
(`none`) when fewer than 2 bytes remain. -/
def get_u16_le : Bytes → Option (Nat × Bytes)
  | b0 :: b1 :: rest => some (b0 + 256 * b1, rest)
  | _ => Option.none

/-- `Buf::get_u32_le`: read a 4-byte little-endian integer; panics
(`none`) when fewer than 4 bytes remain. -/
def get_u32_le : Bytes → Option (Nat × Bytes)
  | b0 :: b1 :: b2 :: b3 :: rest =>
      some (b0 + 256 * b1 + 65536 * b2 + 16777216 * b3, rest)
  | _ => Option.none

/-- `Buf::advance(n)`: drop `n` bytes; panics (`none`) when fewer than
`n` bytes remain. -/
def advance : Nat → Bytes → Option Bytes
  | 0, b => some b
  | _ + 1, [] => Option.none
  | n + 1, _ :: b => advance n b

/-- `Bytes::split_to(n)`: split off the first `n` bytes; panics (`none`)
when fewer than `n` bytes remain. -/
def split_to : Nat → Bytes → Option (Bytes × Bytes)
  | 0, b => some ([], b)
  | _ + 1, [] => Option.none
  | n + 1, x :: b =>
      match split_to n b with
      | some (l, r) => some (x :: l, r)
      | Option.none => Option.none

/-- `Controller(u16)`: a 16-bit controller index (src/mgmt/interface/controller). -/
structure Controller where
  index : Nat
deriving DecidableEq

/-- `Controller::none()`: the reserved sentinel index `0xFFFF` meaning
"not controller-specific". -/
def Controller.none : Controller := ⟨0xFFFF⟩

/-- Modelled from the spec: the `ManagementCommand` opcode enumeration is
not under src/ (only its uses in client.rs are).  The spec's command
catalog names four commands (version query, controller enumeration,
controller info query, set powered); their numbering follows the target
management protocol. -/
inductive ManagementCommand where
  | ReadVersionInfo
  | ReadControllerIndexList
  | ReadControllerInfo
  | SetPowered
deriving DecidableEq

/-- Modelled from the spec: `FromPrimitive::from_u16` for the opcode
enumeration — a closed lookup that rejects every value outside the
recognized set (in particular `0x00FF` is not recognized). -/
def ManagementCommand.from_u16 : Nat → Option ManagementCommand
  | 0x0001 => some .ReadVersionInfo
  | 0x0003 => some .ReadControllerIndexList
  | 0x0004 => some .ReadControllerInfo
  | 0x0005 => some .SetPowered
  | _ => Option.none

/-- Modelled from the spec: the `ManagementCommandStatus` enumeration is
not under src/.  The spec names it a closed 8-bit enumeration
"(Success, Busy, …)" with `Success` the success code. -/
inductive ManagementCommandStatus where
  | Success
  | Busy
deriving DecidableEq

/-- Modelled from the spec: `FromPrimitive::from_u8` for the status
enumeration — a closed lookup rejecting unrecognized values. -/
def ManagementCommandStatus.from_u8 : Nat → Option ManagementCommandStatus
  | 0x00 => some .Success
  | 0x0A => some .Busy
  | _ => Option.none

/-- The error type surfaced by decoding and command execution
(`ManagementError` variants used by the two source files). -/
inductive ManagementError where
  | UnknownOpcode (opcode : Nat)
  | UnknownStatus (status : Nat)
  | CommandError (opcode : ManagementCommand) (status : ManagementCommandStatus)
deriving DecidableEq

/-- `ManagementEvent`: tagged union of the inbound messages decoded by
`ManagementResponse::parse`.  Name fields are kept as raw bytes
(`OsString::from_vec` preserves the bytes verbatim). -/
inductive ManagementEvent where
  | CommandComplete (opcode : ManagementCommand)
      (status : ManagementCommandStatus) (param : Bytes)
  | CommandStatus (opcode : ManagementCommand) (status : ManagementCommandStatus)
  | ControllerError (code : Nat)
  | IndexAdded
  | IndexRemoved
  | LocalNameChanged (name : Bytes) (short_name : Bytes)
deriving DecidableEq

/-- Outcome of running a fallible decode step: a value, a typed
`ManagementError`, or a Rust panic (abort). -/
inductive PResult (α : Type) where
  | ok (a : α)
  | error (e : ManagementError)
  | panic (msg : String)
deriving DecidableEq

/-- Whether a `PResult` is a panic outcome. -/
def PResult.isPanic {α : Type} : PResult α → Bool
  | .panic _ => true
  | _ => false

/-- `ManagementResponse`: a decoded frame — an event plus the controller
index from the frame header. -/
structure ManagementResponse where
  event : ManagementEvent
  controller : Controller
deriving DecidableEq

/-- The event-payload part of `ManagementResponse::parse`: the `match
evt_code` expression of response.rs.  `0x0006`/`0x0007` hit
`unimplemented!` and any unknown code hits `todo!`, both modelled as
panics. -/
def parse_event (evt_code : Nat) (buf : Bytes) : PResult ManagementEvent :=
  if evt_code = 0x0001 ∨ evt_code = 0x0002 then
    match get_u16_le buf with
    | Option.none => .panic "get_u16_le"
    | some (raw_opcode, buf) =>
      match ManagementCommand.from_u16 raw_opcode with
      | Option.none => .error (.UnknownOpcode raw_opcode)
      | some opcode =>
        match get_u8 buf with
        | Option.none => .panic "get_u8"
        | some (raw_status, buf) =>
          match ManagementCommandStatus.from_u8 raw_status with
          | Option.none => .error (.UnknownStatus raw_status)
          | some status =>
            if evt_code = 0x0001 then
              .ok (.CommandComplete opcode status buf)
            else
              .ok (.CommandStatus opcode status)
  else if evt_code = 0x0003 then
    match get_u8 buf with
    | Option.none => .panic "get_u8"
    | some (code, _) => .ok (.ControllerError code)
  else if evt_code = 0x0004 then .ok .IndexAdded
  else if evt_code = 0x0005 then .ok .IndexRemoved
  else if evt_code = 0x0006 then
    .panic "not implemented: ManagementEvent::NewSettings"
  else if evt_code = 0x0007 then
    .panic "not implemented: ManagementEvent::ClassOfDeviceChanged"
  else if evt_code = 0x0008 then
    match split_to 249 buf with
    | Option.none => .panic "split_to"
    | some (name, short_name) => .ok (.LocalNameChanged name short_name)
  else
    .panic "not yet implemented: throw error instead of panicking"

/-- `ManagementResponse::parse`: read the 2-byte event code and 2-byte
controller index, skip the 2-byte declared param length
("we already know param length"), then decode the event from the
remaining bytes. -/
def ManagementResponse.parse (buf : Bytes) : PResult ManagementResponse :=
  match get_u16_le buf with
  | Option.none => .panic "get_u16_le"
  | some (evt_code, buf) =>
    match get_u16_le buf with
    | Option.none => .panic "get_u16_le"
    | some (ctrl, buf) =>
      match advance 2 buf with
      | Option.none => .panic "advance"
      | some buf =>
        match parse_event evt_code buf with
        | .ok event => .ok ⟨event, ⟨ctrl⟩⟩
        | .error e => .error e
        | .panic m => .panic m

/-- Outcome of `exec_command` over a finite list of received frames:
a value, an error, a panic, or `stalled` when no frame ever matched
(the Rust loop would block forever). -/
inductive ExecOutcome (T : Type) where
  | ok (t : T)
  | error (e : ManagementError)
  | panic (msg : String)
  | stalled
deriving DecidableEq

/-- Lift a callback outcome into an `ExecOutcome`. -/
def ExecOutcome.ofPResult {T : Type} : PResult T → ExecOutcome T
  | .ok t => .ok t
  | .error e => .error e
  | .panic m => .panic m

/-- `ManagementClient::exec_command`'s receive loop, run over the list of
frames the socket yields in order: skip every frame that is not a
command-complete/command-status event for the pending opcode; on the
first match, return the callback's value on success status or a
`CommandError` otherwise. -/
def exec_command {T : Type} (opcode : ManagementCommand)
    (callback : Controller → Option Bytes → PResult T) :
    List ManagementResponse → ExecOutcome T
  | [] => .stalled
  | response :: rest =>
    match response.event with
    | .CommandComplete evt_opcode status param =>
      if evt_opcode = opcode then
        match status with
        | .Success => ExecOutcome.ofPResult (callback response.controller (some param))
        | status => .error (.CommandError opcode status)
      else exec_command opcode callback rest
    | .CommandStatus evt_opcode status =>
      if evt_opcode = opcode then
        match status with
        | .Success => ExecOutcome.ofPResult (callback response.controller Option.none)
        | status => .error (.CommandError opcode status)
      else exec_command opcode callback rest
    | _ => exec_command opcode callback rest

/-- `ManagementVersion`: 1-byte version, 2-byte revision. -/
structure ManagementVersion where
  version : Nat
  revision : Nat
deriving DecidableEq

/-- The closure passed to `exec_command` by `get_mgmt_version`:
`param.unwrap()` (panics on `None`), then `get_u8` and `get_u16_le`. -/
def get_mgmt_version_callback (_c : Controller) (param : Option Bytes) :
    PResult ManagementVersion :=
  match param with
  | Option.none => .panic "called Option::unwrap on a None value"
  | some p =>
    match get_u8 p with
    | Option.none => .panic "get_u8"
    | some (version, p) =>
      match get_u16_le p with
      | Option.none => .panic "get_u16_le"
      | some (revision, _) => .ok ⟨version, revision⟩

/-- The read loop inside `get_controller_list`'s closure: read `count`
2-byte little-endian controller indices in order. -/
def read_controllers : Nat → Bytes → PResult (List Controller)
  | 0, _ => .ok []
  | n + 1, p =>
    match get_u16_le p with
    | Option.none => .panic "get_u16_le"
    | some (v, p) =>
      match read_controllers n p with
      | .ok rest => .ok (⟨v⟩ :: rest)
      | .error e => .error e
      | .panic m => .panic m

/-- The closure passed to `exec_command` by `get_controller_list`:
`param.unwrap()`, read a 2-byte count, then that many 2-byte indices. -/
def get_controller_list_callback (_c : Controller) (param : Option Bytes) :
    PResult (List Controller) :=
  match param with
  | Option.none => .panic "called Option::unwrap on a None value"
  | some p =>
    match get_u16_le p with
    | Option.none => .panic "get_u16_le"
    | some (count, p) => read_controllers count p

/-- Modelled from the spec: the `ControllerSettings` bit-set type is not
under src/.  The spec describes a 32-bit flag word whose recognized
named flags (powered, connectable, …) occupy the low bits; we take the
recognized-flag mask to be the low 16 bits, matching the catalog of 16
named capability flags. -/
def ControllerSettings.all_known_bits : Nat := 0xFFFF

/-- Modelled from the spec: `bitflags`' `from_bits_truncate` — keep the
recognized flag bits of a wire word and discard the rest, never
erroring. -/
def ControllerSettings.from_bits_truncate (bits : Nat) : Nat :=
  bits &&& ControllerSettings.all_known_bits

/-- `ControllerInfo`: the record decoded by `get_controller_info`.
Settings words are stored as their truncated bit patterns; the name
fields are the raw bytes (`OsString::from_vec` keeps bytes verbatim). -/
structure ControllerInfo where
  address : Bytes
  bluetooth_version : Nat
  manufacturer : Bytes
  supported_settings : Nat
  current_settings : Nat
  class_of_device : Bytes
  name : Bytes
  short_name : Bytes
deriving DecidableEq

/-- The closure passed to `exec_command` by `get_controller_info`:
`param.unwrap()`, then split off the 6-byte address, 1-byte version,
2-byte manufacturer, two truncated 4-byte settings words, 3-byte class
of device, the fixed 249-byte name, and the remaining short name. -/
def get_controller_info_callback (_c : Controller) (param : Option Bytes) :
    PResult ControllerInfo :=
  match param with
  | Option.none => .panic "called Option::unwrap on a None value"
  | some p =>
    match split_to 6 p with
    | Option.none => .panic "split_to"
    | some (address, p) =>
      match get_u8 p with
      | Option.none => .panic "get_u8"
      | some (bluetooth_version, p) =>
        match split_to 2 p with
        | Option.none => .panic "split_to"
        | some (manufacturer, p) =>
          match get_u32_le p with
          | Option.none => .panic "get_u32_le"
          | some (supported, p) =>
            match get_u32_le p with
            | Option.none => .panic "get_u32_le"
            | some (current, p) =>
              match split_to 3 p with
              | Option.none => .panic "split_to"
              | some (class_of_device, p) =>
                match split_to 249 p with
                | Option.none => .panic "split_to"
                | some (name, short_name) =>
                  .ok ⟨address, bluetooth_version, manufacturer,
                    ControllerSettings.from_bits_truncate supported,
                    ControllerSettings.from_bits_truncate current,
                    class_of_device, name, short_name⟩

/-- The closure passed to `exec_command` by `set_powered`:
`param.unwrap()`, then a truncated 4-byte settings word. -/
def set_powered_callback (_c : Controller) (param : Option Bytes) :
    PResult Nat :=
  match param with
  | Option.none => .panic "called Option::unwrap on a None value"
  | some p =>
    match get_u32_le p with
    | Option.none => .panic "get_u32_le"
    | some (settings, _) => .ok (ControllerSettings.from_bits_truncate settings)

/-- Little-endian 2-byte encoding of an integer. -/
def u16_bytes (v : Nat) : Bytes := [v % 256, v / 256]

/-- Little-endian 4-byte encoding of an integer. -/
def u32_bytes (v : Nat) : Bytes :=
  [v % 256, v / 256 % 256, v / 65536 % 256, v / 16777216 % 256]

/-- Concatenated 2-byte encodings of a list of integers. -/
def u16_list_bytes : List Nat → Bytes
  | [] => []
  | v :: vs => u16_bytes v ++ u16_list_bytes vs

/-- Whether a received frame is a command-complete or command-status
event whose embedded opcode equals the pending one — exactly the frames
on which `exec_command`'s loop resolves. -/
def matches_pending (opcode : ManagementCommand) (r : ManagementResponse) : Bool :=
  match r.event with
  | .CommandComplete evt_opcode _ _ => evt_opcode = opcode
  | .CommandStatus evt_opcode _ => evt_opcode = opcode
  | _ => false

/-! ### Helper lemmas -/

/-- Splitting off exactly the length of the first list succeeds. -/
theorem split_to_append (n : Nat) (l r : Bytes) (h : l.length = n) :
    split_to n (l ++ r) = some (l, r) := by
  subst h
  induction l with
  | nil => rfl
  | cons x t ih => simp [split_to, ih]

/-- Splitting a buffer of exactly `n` bytes yields it whole. -/
theorem split_to_exact (n : Nat) (l : Bytes) (h : l.length = n) :
    split_to n l = some (l, []) := by
  have := split_to_append n l [] h
  simpa using this

/-- Reading back a 2-byte little-endian encoding recovers the value. -/
theorem get_u16_le_u16_bytes (v : Nat) (r : Bytes) :
    get_u16_le (u16_bytes v ++ r) = some (v, r) := by
  simp [u16_bytes, get_u16_le]
  omega

/-- Reading back a 4-byte little-endian encoding recovers the value. -/
theorem get_u32_le_u32_bytes (v : Nat) (r : Bytes) (h : v < 4294967296) :
    get_u32_le (u32_bytes v ++ r) = some (v, r) := by
  simp [u32_bytes, get_u32_le]
  omega

/-- A frame that is not a matching command-complete/command-status event
is discarded: the receive loop continues with the remaining frames. -/
theorem exec_command_skip {T : Type} (opcode : ManagementCommand)
    (callback : Controller → Option Bytes → PResult T)
    (r : ManagementResponse) (l : List ManagementResponse)
    (h : matches_pending opcode r = false) :
    exec_command opcode callback (r :: l) = exec_command opcode callback l := by
  cases hr : r.event with
  | CommandComplete evt_opcode status param =>
    have hne : ¬(evt_opcode = opcode) := by simpa [matches_pending, hr] using h
    simp [exec_command, hr, hne]
  | CommandStatus evt_opcode status =>
    have hne : ¬(evt_opcode = opcode) := by simpa [matches_pending, hr] using h
    simp [exec_command, hr, hne]
  | ControllerError code => simp [exec_command, hr]
  | IndexAdded => simp [exec_command, hr]
  | IndexRemoved => simp [exec_command, hr]
  | LocalNameChanged name sn => simp [exec_command, hr]

/-- On a matching frame the loop resolves at once: the outcome ignores
all later frames and is never `stalled`. -/
theorem exec_command_match_head {T : Type} (opcode : ManagementCommand)
    (callback : Controller → Option Bytes → PResult T)
    (m : ManagementResponse) (rest : List ManagementResponse)
    (h : matches_pending opcode m = true) :
    exec_command opcode callback (m :: rest) = exec_command opcode callback [m]
    ∧ exec_command opcode callback [m] ≠ ExecOutcome.stalled := by
  cases hm : m.event with
  | CommandComplete evt_opcode status param =>
    have he : evt_opcode = opcode := by simpa [matches_pending, hm] using h
    subst he
    cases status with
    | Success =>
      refine ⟨by simp [exec_command, hm], ?_⟩
      simp only [exec_command, hm, if_pos rfl]
      cases callback m.controller (some param) <;> simp [ExecOutcome.ofPResult]
    | Busy => exact ⟨by simp [exec_command, hm], by simp [exec_command, hm]⟩
  | CommandStatus evt_opcode status =>
    have he : evt_opcode = opcode := by simpa [matches_pending, hm] using h
    subst he
    cases status with
    | Success =>
      refine ⟨by simp [exec_command, hm], ?_⟩
      simp only [exec_command, hm, if_pos rfl]
      cases callback m.controller Option.none <;> simp [ExecOutcome.ofPResult]
    | Busy => exact ⟨by simp [exec_command, hm], by simp [exec_command, hm]⟩
  | ControllerError code => exact absurd h (by simp [matches_pending, hm])
  | IndexAdded => exact absurd h (by simp [matches_pending, hm])
  | IndexRemoved => exact absurd h (by simp [matches_pending, hm])
  | LocalNameChanged name sn => exact absurd h (by simp [matches_pending, hm])

/-- Reading `idxs.length` 2-byte indices recovers the controllers in
wire order. -/
theorem read_controllers_u16 (idxs : List Nat) :
    read_controllers idxs.length (u16_list_bytes idxs)
      = .ok (idxs.map Controller.mk) := by
  induction idxs with
  | nil => rfl
  | cons v t ih =>
    simp [u16_list_bytes, u16_bytes, read_controllers, get_u16_le, Nat.mod_add_div, ih]

/-! ### Claim theorems -/

/-- C1: `exec_command` resolves only on the first received frame that is
a command-complete or command-status event whose embedded opcode equals
the pending opcode: a prefix of non-matching frames alone leaves the
loop waiting (`stalled`), prepending such a prefix before the first
matching frame does not change the outcome (each non-matching frame is
discarded and the loop continues), later frames are never consumed, and
the first matching frame always resolves the operation. -/
theorem exec_command_correlates_first_match {T : Type}
    (opcode : ManagementCommand)
    (callback : Controller → Option Bytes → PResult T)
    (pre : List ManagementResponse) (m : ManagementResponse)
    (rest : List ManagementResponse)
    (hpre : ∀ r ∈ pre, matches_pending opcode r = false)
    (hm : matches_pending opcode m = true) :
    exec_command opcode callback pre = ExecOutcome.stalled
    ∧ exec_command opcode callback (pre ++ m :: rest)
        = exec_command opcode callback [m]
    ∧ exec_command opcode callback [m] ≠ ExecOutcome.stalled := by
  refine ⟨?_, ?_, (exec_command_match_head opcode callback m [] hm).2⟩
  · induction pre with
    | nil => rfl
    | cons r l ih =>
      rw [exec_command_skip opcode callback r l (hpre r (List.mem_cons_self r l))]
      exact ih (fun x hx => hpre x (List.mem_cons_of_mem r hx))
  · induction pre with
    | nil => exact (exec_command_match_head opcode callback m rest hm).1
    | cons r l ih =>
      rw [List.cons_append,
        exec_command_skip opcode callback r _ (hpre r (List.mem_cons_self r l))]
      exact ih (fun x hx => hpre x (List.mem_cons_of_mem r hx))

theorem exec_command_correlates_first_match_witness :
    exec_command .ReadVersionInfo get_mgmt_version_callback
      [⟨.IndexAdded, Controller.none⟩,
       ⟨.CommandComplete .SetPowered .Success [], ⟨0⟩⟩]
      = ExecOutcome.stalled
    ∧ exec_command .ReadVersionInfo get_mgmt_version_callback
        ([⟨.IndexAdded, Controller.none⟩,
          ⟨.CommandComplete .SetPowered .Success [], ⟨0⟩⟩] ++
          ⟨.CommandComplete .ReadVersionInfo .Success [6, 35, 1], ⟨0⟩⟩ ::
          [⟨.CommandComplete .ReadVersionInfo .Success [9, 9, 9], ⟨1⟩⟩])
        = exec_command .ReadVersionInfo get_mgmt_version_callback
            [⟨.CommandComplete .ReadVersionInfo .Success [6, 35, 1], ⟨0⟩⟩]
    ∧ exec_command .ReadVersionInfo get_mgmt_version_callback
        [⟨.CommandComplete .ReadVersionInfo .Success [6, 35, 1], ⟨0⟩⟩]
        ≠ ExecOutcome.stalled :=
  exec_command_correlates_first_match .ReadVersionInfo get_mgmt_version_callback
    [⟨.IndexAdded, Controller.none⟩,
     ⟨.CommandComplete .SetPowered .Success [], ⟨0⟩⟩]
    ⟨.CommandComplete .ReadVersionInfo .Success [6, 35, 1], ⟨0⟩⟩
    [⟨.CommandComplete .ReadVersionInfo .Success [9, 9, 9], ⟨1⟩⟩]
    (by decide) (by decide)

/-- C4: when the first matching frame (command-complete or
command-status) carries a non-success status, `exec_command` fails with
a `CommandError` carrying exactly the pending opcode and that status —
for every callback, so the command-specific decoder is never invoked
(the outcome does not depend on it). -/
theorem exec_command_nonsuccess_fails {T : Type}
    (opcode : ManagementCommand)
    (callback : Controller → Option Bytes → PResult T)
    (status : ManagementCommandStatus) (c : Controller) (param : Bytes)
    (rest : List ManagementResponse)
    (h : status ≠ ManagementCommandStatus.Success) :
    exec_command opcode callback (⟨.CommandComplete opcode status param, c⟩ :: rest)
      = ExecOutcome.error (.CommandError opcode status)
    ∧ exec_command opcode callback (⟨.CommandStatus opcode status, c⟩ :: rest)
      = ExecOutcome.error (.CommandError opcode status) := by
  cases status with
  | Success => exact absurd rfl h
  | Busy => exact ⟨by simp [exec_command], by simp [exec_command]⟩

theorem exec_command_nonsuccess_fails_witness :
    exec_command .SetPowered set_powered_callback
      [⟨.CommandComplete .SetPowered .Busy [159, 0, 0, 0], ⟨0⟩⟩]
      = ExecOutcome.error (.CommandError .SetPowered .Busy)
    ∧ exec_command .SetPowered set_powered_callback
      [⟨.CommandStatus .SetPowered .Busy, ⟨0⟩⟩]
      = ExecOutcome.error (.CommandError .SetPowered .Busy) :=
  exec_command_nonsuccess_fails .SetPowered set_powered_callback .Busy ⟨0⟩
    [159, 0, 0, 0] [] (by decide)

/-- C10: every catalog decoder unwraps the optional payload, and
`exec_command` passes no payload when a command resolves through a
command-status event with success status; so each of the four commands
then panics in its decoder instead of returning a value or an error. -/
theorem decoders_panic_on_status_success_resolution :
    exec_command .ReadVersionInfo get_mgmt_version_callback
      [⟨.CommandStatus .ReadVersionInfo .Success, Controller.none⟩]
      = .panic "called Option::unwrap on a None value"
    ∧ exec_command .ReadControllerIndexList get_controller_list_callback
      [⟨.CommandStatus .ReadControllerIndexList .Success, Controller.none⟩]
      = .panic "called Option::unwrap on a None value"
    ∧ exec_command .ReadControllerInfo get_controller_info_callback
      [⟨.CommandStatus .ReadControllerInfo .Success, ⟨0⟩⟩]
      = .panic "called Option::unwrap on a None value"
    ∧ exec_command .SetPowered set_powered_callback
      [⟨.CommandStatus .SetPowered .Success, ⟨0⟩⟩]
      = .panic "called Option::unwrap on a None value" := by
  decide

/-- C3 (code behavior at the failing inputs): `parse` panics — aborting
the process — on event codes `0x0006` and `0x0007` (`unimplemented!`)
and on any event code outside the known set (`todo!`), instead of
returning a typed error. -/
theorem parse_aborts_on_unhandled_event_codes :
    ManagementResponse.parse [6, 0, 255, 255, 0, 0]
      = .panic "not implemented: ManagementEvent::NewSettings"
    ∧ ManagementResponse.parse [7, 0, 255, 255, 0, 0]
      = .panic "not implemented: ManagementEvent::ClassOfDeviceChanged"
    ∧ ManagementResponse.parse [9, 0, 0, 0, 0, 0]
      = .panic "not yet implemented: throw error instead of panicking" := by
  decide

/-- C2 counterexample: a command-complete frame declaring a 4-byte
payload but carrying 6 payload bytes decodes with a result payload that
includes the trailing bytes past the declared length — the decoded value
is not the declared-length sub-slice `[170]`. -/
theorem parse_reads_past_declared_length :
    ManagementResponse.parse [1, 0, 0, 0, 4, 0, 1, 0, 0, 170, 187, 204]
      = .ok ⟨.CommandComplete .ReadVersionInfo .Success [170, 187, 204], ⟨0⟩⟩
    ∧ ([170, 187, 204] : Bytes) ≠ [170] := by
  decide

/-- C2 amended: decoding skips the declared 2-byte payload length
without using it: for a command-complete frame the result payload handed
to the command decoder is every byte remaining after the embedded opcode
and status, whatever the length field says — trailing bytes beyond the
declared length are included, not ignored. -/
theorem parse_param_is_all_remaining_bytes (c0 c1 l0 l1 : Nat) (rest : Bytes) :
    ManagementResponse.parse
      (1 :: 0 :: c0 :: c1 :: l0 :: l1 :: 1 :: 0 :: 0 :: rest)
      = .ok ⟨.CommandComplete .ReadVersionInfo .Success rest, ⟨c0 + 256 * c1⟩⟩ := rfl

/-- C5 counterexample: a command-complete frame declaring a 10-byte
payload while only 3 payload bytes are present decodes to a value
instead of a malformed-frame error, and a 1-byte buffer makes decoding
panic instead of returning an error. -/
theorem parse_short_input_no_malformed_error :
    ManagementResponse.parse [1, 0, 0, 0, 10, 0, 1, 0, 0]
      = .ok ⟨.CommandComplete .ReadVersionInfo .Success [], ⟨0⟩⟩
    ∧ ManagementResponse.parse [3] = .panic "get_u16_le" := by
  decide

/-- C5 amended: decoding never checks the declared payload length, so a
frame with fewer payload bytes than declared can still decode to a
value; and a buffer with fewer bytes than a fixed header field requires
makes decoding panic (the `bytes` accessors abort), not return a
malformed-frame protocol error. -/
theorem parse_short_header_panics_length_unchecked :
    (∀ buf : Bytes, buf.length < 6 →
      (ManagementResponse.parse buf).isPanic = true)
    ∧ ManagementResponse.parse [1, 0, 0, 0, 10, 0, 1, 0, 0]
      = .ok ⟨.CommandComplete .ReadVersionInfo .Success [], ⟨0⟩⟩ := by
  constructor
  · intro buf h
    match buf with
    | [] => rfl
    | [a] => rfl
    | [a, b] => rfl
    | [a, b, c] => rfl
    | [a, b, c, d] => rfl
    | [a, b, c, d, e] => rfl
    | a :: b :: c :: d :: e :: f :: t => simp at h; omega
  · decide

theorem parse_short_header_panics_length_unchecked_witness :
    (ManagementResponse.parse [3]).isPanic = true :=
  parse_short_header_panics_length_unchecked.1 [3] (by decide)

/-- C6: an embedded opcode outside the recognized enumeration fails
decoding with `UnknownOpcode` carrying the exact raw 16-bit value, and
an embedded status outside the recognized enumeration fails with
`UnknownStatus` carrying the exact raw byte — never a default. -/
theorem parse_unknown_opcode_status_error (raw_opcode raw_status : Nat)
    (c0 c1 l0 l1 : Nat) (rest : Bytes)
    (hop : ManagementCommand.from_u16 raw_opcode = Option.none)
    (hst : ManagementCommandStatus.from_u8 raw_status = Option.none) :
    ManagementResponse.parse
      (1 :: 0 :: c0 :: c1 :: l0 :: l1 :: raw_opcode % 256 :: raw_opcode / 256 :: rest)
      = .error (.UnknownOpcode raw_opcode)
    ∧ ManagementResponse.parse
      (2 :: 0 :: c0 :: c1 :: l0 :: l1 :: 1 :: 0 :: raw_status :: rest)
      = .error (.UnknownStatus raw_status) := by
  constructor
  · simp [ManagementResponse.parse, get_u16_le, advance, parse_event,
      Nat.mod_add_div, hop]
  · simp [ManagementResponse.parse, get_u16_le, get_u8, advance, parse_event,
      ManagementCommand.from_u16, hst]

theorem parse_unknown_opcode_status_error_witness :
    ManagementResponse.parse
      (1 :: 0 :: 0 :: 0 :: 3 :: 0 :: 255 % 256 :: 255 / 256 :: ([] : Bytes))
      = .error (.UnknownOpcode 255)
    ∧ ManagementResponse.parse
      (2 :: 0 :: 0 :: 0 :: 3 :: 0 :: 1 :: 0 :: 238 :: ([] : Bytes))
      = .error (.UnknownStatus 238) :=
  parse_unknown_opcode_status_error 255 238 0 0 3 0 [] (by decide) (by decide)

set_option maxRecDepth 4000 in
/-- C7 counterexample: a local-name-changed frame whose 249-byte name
field is `0x61` followed by 248 zero-padding bytes decodes to a name
that still ends in a zero byte — trailing zeros are not stripped. -/
theorem decoded_name_keeps_trailing_zeros :
    ManagementResponse.parse
      ((8 :: 0 :: 0 :: 0 :: 251 :: 0 :: 97 :: List.replicate 248 0) ++ [98, 0])
      = .ok ⟨.LocalNameChanged (97 :: List.replicate 248 0) [98, 0], ⟨0⟩⟩
    ∧ (97 :: List.replicate 248 0).getLast? = some 0 := by
  constructor
  · decide
  · decide

/-- C7 amended: fixed-width name fields are decoded verbatim
(`OsString::from_vec` of the raw slice): the local-name-changed event
yields the full 249-byte name field including its zero padding, and the
controller-info decoder stores the raw 249-byte name slice and the
remaining short-name bytes unchanged — no trailing-zero stripping
occurs, so decoded names can end in zero bytes. -/
theorem name_fields_decoded_verbatim (name sn : Bytes) (c0 c1 l0 l1 : Nat)
    (h : name.length = 249) :
    ManagementResponse.parse (8 :: 0 :: c0 :: c1 :: l0 :: l1 :: (name ++ sn))
      = .ok ⟨.LocalNameChanged name sn, ⟨c0 + 256 * c1⟩⟩
    ∧ get_controller_info_callback ⟨0⟩
        (some (List.replicate 6 0 ++ 0 :: [0, 0] ++ [0, 0, 0, 0] ++ [0, 0, 0, 0]
          ++ [0, 0, 0] ++ name ++ sn))
      = .ok ⟨List.replicate 6 0, 0, [0, 0], 0, 0, [0, 0, 0], name, sn⟩ := by
  constructor
  · simp [ManagementResponse.parse, get_u16_le, advance, parse_event,
      split_to_append, h]
  · simp [get_controller_info_callback, get_u8, get_u32_le, split_to_append, h,
      ControllerSettings.from_bits_truncate, ControllerSettings.all_known_bits,
      split_to]

set_option maxRecDepth 4000 in
theorem name_fields_decoded_verbatim_witness :
    ManagementResponse.parse
      (8 :: 0 :: 0 :: 0 :: 250 :: 0 :: (List.replicate 249 0 ++ [99]))
      = .ok ⟨.LocalNameChanged (List.replicate 249 0) [99], ⟨0⟩⟩
    ∧ get_controller_info_callback ⟨0⟩
        (some (List.replicate 6 0 ++ 0 :: [0, 0] ++ [0, 0, 0, 0] ++ [0, 0, 0, 0]
          ++ [0, 0, 0] ++ List.replicate 249 0 ++ [99]))
      = .ok ⟨List.replicate 6 0, 0, [0, 0], 0, 0, [0, 0, 0],
          List.replicate 249 0, [99]⟩ :=
  name_fields_decoded_verbatim (List.replicate 249 0) [99] 0 0 250 0 (by simp)

set_option maxRecDepth 8000 in
/-- C8: decoding a 32-bit settings word tolerates unknown high bits —
`from_bits_truncate` never errors — and exposes exactly the recognized
flag bits: the set-powered decoder and the controller-info decoder both
succeed on any 32-bit word and store the word truncated to the
recognized-flag mask, which keeps precisely the low 16 recognized bits
(`w % 65536`) and discards the rest. -/
theorem settings_decode_truncates (w1 w2 : Nat)
    (hw1 : w1 < 4294967296) (hw2 : w2 < 4294967296) :
    set_powered_callback ⟨0⟩ (some (u32_bytes w1))
      = .ok (ControllerSettings.from_bits_truncate w1)
    ∧ get_controller_info_callback ⟨0⟩
        (some (List.replicate 6 0 ++ 0 :: [0, 0] ++ u32_bytes w1 ++ u32_bytes w2
          ++ [0, 0, 0] ++ List.replicate 249 0))
      = .ok ⟨List.replicate 6 0, 0, [0, 0],
          ControllerSettings.from_bits_truncate w1,
          ControllerSettings.from_bits_truncate w2,
          [0, 0, 0], List.replicate 249 0, []⟩
    ∧ ControllerSettings.from_bits_truncate w1 = w1 % 65536 := by
  refine ⟨?_, ?_, Nat.and_pow_two_sub_one_eq_mod w1 16⟩
  · have h4 := get_u32_le_u32_bytes w1 [] hw1
    simp only [List.append_nil] at h4
    simp [set_powered_callback, h4]
  · simp [get_controller_info_callback, get_u8, split_to_append, split_to_exact,
      get_u32_le_u32_bytes, hw1, hw2, split_to]

theorem settings_decode_truncates_witness :
    set_powered_callback ⟨0⟩ (some (u32_bytes 2882339999))
      = .ok (ControllerSettings.from_bits_truncate 2882339999)
    ∧ get_controller_info_callback ⟨0⟩
        (some (List.replicate 6 0 ++ 0 :: [0, 0] ++ u32_bytes 2882339999
          ++ u32_bytes 4294901919 ++ [0, 0, 0] ++ List.replicate 249 0))
      = .ok ⟨List.replicate 6 0, 0, [0, 0],
          ControllerSettings.from_bits_truncate 2882339999,
          ControllerSettings.from_bits_truncate 4294901919, [0, 0, 0],
          List.replicate 249 0, []⟩
    ∧ ControllerSettings.from_bits_truncate 2882339999 = 2882339999 % 65536 :=
  settings_decode_truncates 2882339999 4294901919 (by decide) (by decide)

/-- C9: a controller-enumeration result payload of a 2-byte count `n`
followed by `n` 2-byte indices decodes to exactly those `n` controllers
in wire order. -/
theorem get_controller_list_decodes (idxs : List Nat) (c : Controller)
    (h : ∀ v ∈ idxs, v < 65536) (hn : idxs.length < 65536) :
    get_controller_list_callback c
      (some (u16_bytes idxs.length ++ u16_list_bytes idxs))
      = .ok (idxs.map Controller.mk) := by
  simp [get_controller_list_callback, get_u16_le_u16_bytes, read_controllers_u16]

theorem get_controller_list_decodes_witness :
    get_controller_list_callback Controller.none (some [2, 0, 0, 0, 1, 0])
      = .ok [⟨0⟩, ⟨1⟩] :=
  get_controller_list_decodes [0, 1] Controller.none (by decide) (by decide)
